import Mathlib

/-!
# Geodrop simulation core: shallow embedding and verification

This file embeds the simulation core of the Geodrop 2D mining game in Lean 4
and proves/refutes the frozen specification claims about it.

Embedded components (each definition mirrors the TypeScript source):
* `TileType`, `TileRegistry`      — src/config/tiles.ts
* `WorldConfig`, `MiningConfig`   — src/config/world.ts, src/config/mining.ts
* `RNG`                           — src/utils/RNG.ts (LCG over JS numbers;
  integer states are exact in doubles below 2^53, so states are `Int` and
  the JS `%` operator is truncated remainder `Int.tmod`)
* `GenerationSystem`              — src/systems/GenerationSystem.ts
  (the host `Math.sin` is passed as an oracle parameter `sinq`)
* `TilemapSystem`                 — src/systems/TilemapSystem.ts (the sprite
  map is modelled by its key set, a `Int → Int → Bool` presence function)
* `PlayerSystem.checkTileCollisions` — src/systems/PlayerSystem.ts
* `MiningSystem.update`           — src/systems/MiningSystem.ts

Pixel/time quantities are exact rationals `ℚ`; the arithmetic performed by
the source on these values (+, -, *, /, min, floor, comparisons) is exact
in IEEE doubles on the ranges exercised, so `ℚ` is a faithful model.
-/

namespace Geodrop

/-! ## Tile types and registry (src/config/tiles.ts) -/

inductive TileType where
  | EMPTY
  | DIRT
  | STONE
  | ORE
  | BEDROCK
deriving DecidableEq, Repr

structure TileDefinition where
  hardness : ℚ
  solid : Bool
  connectedTexture : Bool
deriving DecidableEq, Repr

def TileRegistry : TileType → TileDefinition
  | .EMPTY   => ⟨0, false, false⟩
  | .DIRT    => ⟨1, true, true⟩
  | .STONE   => ⟨3, true, true⟩
  | .ORE     => ⟨5, true, false⟩
  | .BEDROCK => ⟨999, true, false⟩

/-! ## World configuration (src/config/world.ts) -/

def WorldConfig.tileWidth : ℚ := 32
def WorldConfig.tileHeight : ℚ := 32
def WorldConfig.worldWidthInTiles : Int := 32
def WorldConfig.worldHeightInTiles : Int := 128
def WorldConfig.surfaceLayer : Int := 5
def WorldConfig.dirtLayer : Int := 20
def WorldConfig.stoneLayer : Int := 100
def WorldConfig.seed : Int := 0

/-! ## Mining configuration (src/config/mining.ts) -/

def MiningConfig.miningSpeed : ℚ := 2
def MiningConfig.landingCooldown : ℚ := 10

/-! ## Seeded RNG (src/utils/RNG.ts)

The TS class keeps `seed` and `current` as JS numbers.  The constructor
takes an optional seed and falls back to `Date.now()`; the fallback clock
value is an explicit `now` parameter here.  JS `%` on integers is the
truncated remainder, `Int.tmod`. -/

structure RNGState where
  seed : Int
  current : Int
deriving DecidableEq, Repr

def mkRNG (seedArg : Option Int) (now : Int) : RNGState :=
  let s := seedArg.getD now
  ⟨s, s⟩

namespace RNG

def a : Int := 1664525
def c : Int := 1013904223
def m : Int := 2 ^ 32

/-- `next()`: advance `current = (a*current + c) % m` (JS truncated
remainder) and return `current / m`. -/
def next (st : RNGState) : ℚ × RNGState :=
  let cur := Int.tmod (a * st.current + c) m
  ((cur : ℚ) / (m : ℚ), ⟨st.seed, cur⟩)

/-- `nextInt(min,max)`: `Math.floor(next() * (max - min)) + min`. -/
def nextInt (lo hi : ℚ) (st : RNGState) : ℚ × RNGState :=
  let (v, st') := next st
  ((⌊v * (hi - lo)⌋ : ℚ) + lo, st')

/-- `nextFloat(min,max)`: `next() * (max - min) + min`. -/
def nextFloat (lo hi : ℚ) (st : RNGState) : ℚ × RNGState :=
  let (v, st') := next st
  (v * (hi - lo) + lo, st')

/-- `nextBool(p)`: `next() < p`. -/
def nextBool (p : ℚ) (st : RNGState) : Bool × RNGState :=
  let (v, st') := next st
  (decide (v < p), st')

/-- `reset()`: rewind `current` to the initial seed. -/
def reset (st : RNGState) : RNGState :=
  ⟨st.seed, st.seed⟩

/-- State after `n` calls to `next`. -/
def stateAfter (st : RNGState) (n : ℕ) : RNGState :=
  (fun s => (next s).2)^[n] st

/-- List of the first `n` outputs of `next`. -/
def outputs (st : RNGState) : ℕ → List ℚ
  | 0 => []
  | Nat.succ n =>
      let (v, st') := next st
      v :: outputs st' n

end RNG

/-- One call of the RNG public interface, for the "same call sequence"
determinism guarantee. -/
inductive RNGCall where
  | callNext
  | callNextInt (lo hi : ℚ)
  | callNextFloat (lo hi : ℚ)
  | callNextBool (p : ℚ)
deriving DecidableEq, Repr

def runCall (st : RNGState) : RNGCall → ℚ × RNGState
  | .callNext => RNG.next st
  | .callNextInt lo hi => RNG.nextInt lo hi st
  | .callNextFloat lo hi => RNG.nextFloat lo hi st
  | .callNextBool p =>
      let (b, st') := RNG.nextBool p st
      (if b then 1 else 0, st')

def runCalls (st : RNGState) : List RNGCall → List ℚ
  | [] => []
  | cll :: rest =>
      let (v, st') := runCall st cll
      v :: runCalls st' rest

/-- Mathematical-mod LCG state sequence, exactly as the spec words it:
`state = (a*state + c) mod 2^32`, starting from the seed. -/
def lcgSpecState (s : Int) : ℕ → Int
  | 0 => s
  | Nat.succ n => (RNG.a * lcgSpecState s n + RNG.c) % RNG.m

/-! ## World data and tilemap (src/types/WorldTypes.ts, src/systems/TilemapSystem.ts) -/

abbrev TileGrid := List (List TileType)

structure WorldData where
  tiles : TileGrid
  width : Int
  height : Int
  seed : Int
deriving DecidableEq, Repr

/-- The `TilemapSystem`'s observable state: the world data plus the key set
of its `tileSprites` map (`sprites x y = true` iff a sprite is registered
under the key `"x,y"`). -/
structure TilemapState where
  world : WorldData
  sprites : Int → Int → Bool

/-- Write `tiles[y][x] = v` on a row-major grid (no-op out of array range,
as the claims only exercise it after the source's bounds check). -/
def setTile2D (g : TileGrid) (y x : Int) (v : TileType) : TileGrid :=
  g.set y.toNat ((g.getD y.toNat []).set x.toNat v)

/-- `getTileAt(x,y)`: bounds-checked lookup, `null` out of range. -/
def getTileAt (tm : TilemapState) (x y : Int) : Option TileType :=
  if x < 0 ∨ y < 0 ∨ x ≥ tm.world.width ∨ y ≥ tm.world.height then
    none
  else
    some ((tm.world.tiles.getD y.toNat []).getD x.toNat TileType.EMPTY)

/-- `isSolid(x,y)`: `false` when `getTileAt` is `null`, else the registry's
`solid` flag. -/
def isSolid (tm : TilemapState) (x y : Int) : Bool :=
  match getTileAt tm x y with
  | none => false
  | some t => (TileRegistry t).solid

/-- `updateNeighborConnections(cx,cy)`: each of the 8 neighbours that holds
a non-empty connected-texture tile gets its sprite destroyed and recreated;
on the sprite key set this re-asserts presence of those keys. -/
def updateNeighborConnections (tm : TilemapState) (cx cy : Int) : TilemapState :=
  let neighbors : List (Int × Int) :=
    [(cx - 1, cy - 1), (cx, cy - 1), (cx + 1, cy - 1),
     (cx - 1, cy), (cx + 1, cy),
     (cx - 1, cy + 1), (cx, cy + 1), (cx + 1, cy + 1)]
  { tm with
    sprites := fun x y =>
      if neighbors.contains (x, y) then
        match getTileAt tm x y with
        | none => tm.sprites x y
        | some t =>
            if t = TileType.EMPTY then tm.sprites x y
            else if (TileRegistry t).connectedTexture then true
            else tm.sprites x y
      else tm.sprites x y }

/-- `destroyTile(x,y)`: bounds check, then sprite lookup (`false` if no
sprite is registered), then remove the sprite, set the cell to Empty and
refresh neighbour sprites. -/
def destroyTile (tm : TilemapState) (x y : Int) : Bool × TilemapState :=
  if x < 0 ∨ y < 0 ∨ x ≥ tm.world.width ∨ y ≥ tm.world.height then
    (false, tm)
  else if tm.sprites x y = false then
    (false, tm)
  else
    let spritesRemoved := fun x' y' => if x' = x ∧ y' = y then false else tm.sprites x' y'
    let world' := { tm.world with tiles := setTile2D tm.world.tiles y x TileType.EMPTY }
    (true, updateNeighborConnections { world := world', sprites := spritesRemoved } x y)

/-! ## World generation (src/systems/GenerationSystem.ts)

`Math.sin` of the host is an oracle parameter `sinq : ℚ → ℚ`; every
generation definition is parametric in it.  A generated tile is returned
together with the RNG state after the cell and the number of RNG draws the
cell consumed (each `nextBool` call counts one draw). -/

structure GenerationParams where
  width : Int
  height : Int
  seed : Int
  surfaceDepth : Int
  dirtDepth : Int
  stoneDepth : Int
deriving DecidableEq, Repr

/-- The optional constructor argument `Partial<GenerationParams>`. -/
structure GenerationParamsArg where
  width : Option Int := none
  height : Option Int := none
  seed : Option Int := none
  surfaceDepth : Option Int := none
  dirtDepth : Option Int := none
  stoneDepth : Option Int := none

/-- JS `a || b` on numbers: `b` when `a` is `0`. -/
def jsOrNum (x y : Int) : Int :=
  if x = 0 then y else x

/-- Constructor default resolution: each field falls back to `WorldConfig`,
the seed to `WorldConfig.seed || Date.now()` (`now` is the clock value). -/
def resolveParams (ps : GenerationParamsArg) (now : Int) : GenerationParams where
  width := ps.width.getD WorldConfig.worldWidthInTiles
  height := ps.height.getD WorldConfig.worldHeightInTiles
  seed := ps.seed.getD (jsOrNum WorldConfig.seed now)
  surfaceDepth := ps.surfaceDepth.getD WorldConfig.surfaceLayer
  dirtDepth := ps.dirtDepth.getD WorldConfig.dirtLayer
  stoneDepth := ps.stoneDepth.getD WorldConfig.stoneLayer

/-- `simplexNoise(x, y, scale)`: three sine terms combined and normalized
to `[0,1]`. -/
def simplexNoise (sinq : ℚ → ℚ) (x y : Int) (scale : ℚ) : ℚ :=
  let scaledX := (x : ℚ) * scale
  let scaledY := (y : ℚ) * scale
  let noise1 := sinq (scaledX * (21/10) + scaledY * (13/10))
  let noise2 := sinq (scaledX * (17/10) - scaledY * (23/10))
  let noise3 := sinq ((scaledX + scaledY) * (9/10))
  let combined := (noise1 + noise2 + noise3) / 3
  (combined + 1) / 2

/-- `generateTileAt(x, y, surfaceDepth, dirtDepth)`.  Returns the tile, the
RNG state after the cell, and how many RNG draws the cell consumed. -/
def generateTileAt (sinq : ℚ → ℚ) (height surfaceDepth dirtDepth : Int)
    (x y : Int) (rng : RNGState) : TileType × RNGState × ℕ :=
  if y < surfaceDepth then
    (TileType.EMPTY, rng, 0)
  else
    let surfaceVariation := sinq ((x : ℚ) * (1/5)) * 2
    let adjustedSurface := (surfaceDepth : ℚ) + surfaceVariation
    if (y : ℚ) < adjustedSurface then
      (TileType.EMPTY, rng, 0)
    else if y < surfaceDepth + dirtDepth then
      let (b, rng') := RNG.nextBool (2/100) rng
      (if b then TileType.ORE else TileType.DIRT, rng', 1)
    else
      let caveNoise := simplexNoise sinq x y (1/10)
      if caveNoise > 3/5 then
        (TileType.EMPTY, rng, 0)
      else
        let (b, rng') := RNG.nextBool (5/100) rng
        if b then (TileType.ORE, rng', 1)
        else if y ≥ height - 2 then (TileType.BEDROCK, rng', 1)
        else (TileType.STONE, rng', 1)

/-- One generated row (`x` from `0` to `width-1`), threading the RNG. -/
def generateRow (sinq : ℚ → ℚ) (p : GenerationParams) (y : Int) (rng : RNGState) :
    List TileType × RNGState :=
  (List.range p.width.toNat).foldl
    (fun (acc : List TileType × RNGState) xn =>
      let r := generateTileAt sinq p.height p.surfaceDepth p.dirtDepth (xn : Int) y acc.2
      (acc.1 ++ [r.1], r.2.1))
    ([], rng)

/-- `generateTiles()`: rows `y` from `0` to `height-1`, row-major. -/
def generateTiles (sinq : ℚ → ℚ) (p : GenerationParams) (rng : RNGState) :
    TileGrid × RNGState :=
  (List.range p.height.toNat).foldl
    (fun (acc : TileGrid × RNGState) yn =>
      let r := generateRow sinq p (yn : Int) acc.2
      (acc.1 ++ [r.1], r.2))
    ([], rng)

/-- `new GenerationSystem(params)` followed by `generate()`: resolve the
parameters (optionally against the clock), seed the RNG, build the grid. -/
def generate (sinq : ℚ → ℚ) (ps : GenerationParamsArg) (now : Int) : WorldData :=
  let p := resolveParams ps now
  let rng := mkRNG (some p.seed) now
  let tiles := (generateTiles sinq p rng).1
  ⟨tiles, p.width, p.height, p.seed⟩

/-! ## Collision resolver (src/systems/PlayerSystem.ts, checkTileCollisions)

The physics body is an axis-aligned box: `x, y` is the top-left corner,
`w, h` its size, `vx, vy` its velocity.  All in pixels, tile size 32. -/

structure Body where
  x : ℚ
  y : ℚ
  w : ℚ
  h : ℚ
  vx : ℚ
  vy : ℚ
deriving DecidableEq, Repr

namespace Body

def left (b : Body) : ℚ := b.x
def right (b : Body) : ℚ := b.x + b.w
def top (b : Body) : ℚ := b.y
def bottom (b : Body) : ℚ := b.y + b.h
def centerX (b : Body) : ℚ := b.x + b.w / 2
def centerY (b : Body) : ℚ := b.y + b.h / 2

end Body

/-- The candidate resolution record the source accumulates
(`{dx, dy, stopVelocityX, stopVelocityY}`). -/
structure TileResolution where
  dx : ℚ
  dy : ℚ
  stopVelocityX : Bool
  stopVelocityY : Bool
deriving DecidableEq, Repr

/-- `overlapX = min(right - tileLeft, tileRight - left)` for tile column `tx`. -/
def overlapX (b : Body) (tx : Int) : ℚ :=
  min (b.right - (tx : ℚ) * 32) (((tx : ℚ) * 32 + 32) - b.left)

/-- `overlapY = min(bottom - tileTop, tileBottom - top)` for tile row `ty`. -/
def overlapY (b : Body) (ty : Int) : ℚ :=
  min (b.bottom - (ty : ℚ) * 32) (((ty : ℚ) * 32 + 32) - b.top)

/-- The resolution the source builds for a single winning tile: least
penetration axis, direction away from the tile's center. -/
def resolveTile (b : Body) (tx ty : Int) : TileResolution :=
  if overlapX b tx < overlapY b ty then
    if b.centerX < (tx : ℚ) * 32 + 16 then
      ⟨-overlapX b tx, 0, true, false⟩
    else
      ⟨overlapX b tx, 0, true, false⟩
  else
    if b.centerY < (ty : ℚ) * 32 + 16 then
      ⟨0, -overlapY b ty, false, true⟩
    else
      ⟨0, overlapY b ty, false, true⟩

/-- Solid, with both overlaps above the 0.5px jitter threshold. -/
def isCandidate (tm : TilemapState) (b : Body) (tx ty : Int) : Bool :=
  isSolid tm tx ty && decide (1/2 < overlapX b tx) && decide (1/2 < overlapY b ty)

/-- Inclusive integer range `[lo, hi]` as a list. -/
def intRange (lo hi : Int) : List Int :=
  (List.range (hi - lo + 1).toNat).map (fun i => lo + (i : Int))

/-- The tile cells the nested loops visit: rows `⌊top/32⌋..⌊bottom/32⌋`
outer, columns `⌊left/32⌋..⌊right/32⌋` inner, as `(tx, ty)` pairs. -/
def scanPairs (b : Body) : List (Int × Int) :=
  (intRange ⌊b.top / 32⌋ ⌊b.bottom / 32⌋).flatMap
    (fun ty => (intRange ⌊b.left / 32⌋ ⌊b.right / 32⌋).map (fun tx => (tx, ty)))

/-- The scanned cells that pass the solidity and threshold tests. -/
def candidates (tm : TilemapState) (b : Body) : List (Int × Int) :=
  (scanPairs b).filter (fun p => isCandidate tm b p.1 p.2)

/-- One fold step of the `maxOverlap` / `bestResolution` accumulation. -/
def collideFoldStep (tm : TilemapState) (b : Body)
    (acc : ℚ × Option TileResolution) (p : Int × Int) : ℚ × Option TileResolution :=
  if isCandidate tm b p.1 p.2 then
    if overlapX b p.1 * overlapY b p.2 > acc.1 then
      (overlapX b p.1 * overlapY b p.2, some (resolveTile b p.1 p.2))
    else acc
  else acc

/-- The whole candidate scan: `maxOverlap` starts at 0, `bestResolution`
at `null`. -/
def collideFold (tm : TilemapState) (b : Body) : ℚ × Option TileResolution :=
  (scanPairs b).foldl (collideFoldStep tm b) (0, none)

/-- The grounded test: vertical velocity at least `-0.5` and one of the two
foot probes `(left+2, bottom+1)`, `(right-2, bottom+1)` on a solid tile. -/
def groundedCheck (tm : TilemapState) (b : Body) : Bool :=
  decide (b.vy ≥ -(1/2)) &&
    (isSolid tm ⌊(b.left + 2) / 32⌋ ⌊(b.bottom + 1) / 32⌋ ||
     isSolid tm ⌊(b.right - 2) / 32⌋ ⌊(b.bottom + 1) / 32⌋)

/-- `checkTileCollisions()`: compute the grounded flag, scan for the best
candidate, apply at most that one correction.  Returns the corrected body
and the grounded flag. -/
def collideStep (tm : TilemapState) (b : Body) : Body × Bool :=
  let grounded := groundedCheck tm b
  match (collideFold tm b).2 with
  | none => (b, grounded)
  | some r =>
      ({ b with
          x := b.x + r.dx
          y := b.y + r.dy
          vx := if r.stopVelocityX then 0 else b.vx
          vy := if r.stopVelocityY then 0 else b.vy }, grounded)

/-! ## Mining system (src/systems/MiningSystem.ts) -/

inductive MiningDirection where
  | NONE
  | DOWN
  | LEFT
  | RIGHT
deriving DecidableEq, Repr

structure MiningState where
  isActive : Bool
  targetX : Int
  targetY : Int
  direction : MiningDirection
  progress : ℚ
  hardness : ℚ
deriving DecidableEq, Repr

/-- The full mutable state of `MiningSystem`: the mining state plus the
landing-cooldown timer and last frame's grounded flag. -/
structure MiningSysState where
  state : MiningState
  landingCooldownTimer : ℚ
  wasGroundedLastFrame : Bool
deriving DecidableEq, Repr

/-- The mining flags of `PlayerInput` consumed by the system. -/
structure MiningInput where
  mineDown : Bool
  mineLeft : Bool
  mineRight : Bool
deriving DecidableEq, Repr

structure MiningResult where
  success : Bool
  tileX : Int
  tileY : Int
  tileType : TileType
  broken : Bool
deriving DecidableEq, Repr

/-- Constructor state: inactive session, target `(-1,-1)`, zero timer,
`wasGroundedLastFrame = false`. -/
def initMiningSys : MiningSysState :=
  ⟨⟨false, -1, -1, MiningDirection.NONE, 0, 0⟩, 0, false⟩

/-- Input priority: down, then left, then right. -/
def getMiningDirection (input : MiningInput) : MiningDirection :=
  if input.mineDown then MiningDirection.DOWN
  else if input.mineLeft then MiningDirection.LEFT
  else if input.mineRight then MiningDirection.RIGHT
  else MiningDirection.NONE

/-- Target tile: the tile containing the player point, offset one tile in
the mining direction. -/
def getTargetTile (playerX playerY : ℚ) (direction : MiningDirection) :
    Option (Int × Int) :=
  let playerTileX := ⌊playerX / 32⌋
  let playerTileY := ⌊playerY / 32⌋
  match direction with
  | MiningDirection.DOWN => some (playerTileX, playerTileY + 1)
  | MiningDirection.LEFT => some (playerTileX - 1, playerTileY)
  | MiningDirection.RIGHT => some (playerTileX + 1, playerTileY)
  | MiningDirection.NONE => none

/-- `resetMining()`: clears `isActive`, `progress` and `direction` only. -/
def resetMining (sys : MiningSysState) : MiningSysState :=
  { sys with
    state := { sys.state with
      isActive := false
      progress := 0
      direction := MiningDirection.NONE } }

/-- `startMining(x, y, direction, hardness)`. -/
def startMining (tileX tileY : Int) (direction : MiningDirection) (hardness : ℚ) :
    MiningState :=
  ⟨true, tileX, tileY, direction, 0, hardness⟩

/-- `MiningSystem.update(input, playerX, playerY, isGrounded, delta)`:
cooldown bookkeeping, guard chain, session start/continue, progress
accumulation, break on `progress ≥ 1`.  Returns the break event (if any),
the new system state and the new tilemap state. -/
def miningUpdate (sys : MiningSysState) (tm : TilemapState) (input : MiningInput)
    (playerX playerY : ℚ) (isGrounded : Bool) (delta : ℚ) :
    Option MiningResult × MiningSysState × TilemapState :=
  let t0 := if sys.landingCooldownTimer > 0 then sys.landingCooldownTimer - delta
            else sys.landingCooldownTimer
  let t1 := if !sys.wasGroundedLastFrame && isGrounded then MiningConfig.landingCooldown
            else t0
  let sys1 : MiningSysState :=
    { sys with landingCooldownTimer := t1, wasGroundedLastFrame := isGrounded }
  let direction := getMiningDirection input
  if direction = MiningDirection.NONE then
    (none, resetMining sys1, tm)
  else if !isGrounded || decide (sys1.landingCooldownTimer > 0) then
    (none, resetMining sys1, tm)
  else
    match getTargetTile playerX playerY direction with
    | none => (none, resetMining sys1, tm)
    | some (tileX, tileY) =>
      ((match getTileAt tm tileX tileY with
      | none => (none, resetMining sys1, tm)
      | some tileType =>
          if (TileRegistry tileType).solid = false then
            (none, resetMining sys1, tm)
          else
            let sys2 : MiningSysState :=
              if !sys1.state.isActive ∨ sys1.state.targetX ≠ tileX ∨
                  sys1.state.targetY ≠ tileY then
                { sys1 with
                  state := startMining tileX tileY direction (TileRegistry tileType).hardness }
              else sys1
            let deltaSeconds := delta / 1000
            let sys3 : MiningSysState :=
              { sys2 with state := { sys2.state with
                  progress := sys2.state.progress +
                    (MiningConfig.miningSpeed / sys2.state.hardness) * deltaSeconds } }
            if sys3.state.progress ≥ 1 then
              let dres := destroyTile tm tileX tileY
              (some ⟨dres.1, tileX, tileY, tileType, true⟩, resetMining sys3, dres.2)
            else
              (none, sys3, tm)) : Option MiningResult × MiningSysState × TilemapState)

/-! ## Helper lemmas -/

lemma getD_set_self {α : Type} (l : List α) (n : ℕ) (v d : α) (h : n < l.length) :
    (l.set n v).getD n d = v := by
  rw [List.getD_eq_getElem _ _ (by simpa using h)]
  simp [h]

/-- After `tiles[y][x] = EMPTY`, reading back cell `(x,y)` with default
`EMPTY` gives `EMPTY`. -/
lemma setTile2D_getD_self (g : TileGrid) (y x : Int) :
    ((setTile2D g y x TileType.EMPTY).getD y.toNat []).getD x.toNat TileType.EMPTY =
      TileType.EMPTY := by
  unfold setTile2D
  by_cases hy : y.toNat < g.length
  · rw [getD_set_self _ _ _ _ hy]
    by_cases hx : x.toNat < (g.getD y.toNat []).length
    · rw [getD_set_self _ _ _ _ hx]
    · have hd : ((g.getD y.toNat []).set x.toNat TileType.EMPTY).getD x.toNat
          TileType.EMPTY = TileType.EMPTY := by
        apply List.getD_eq_default
        simpa using not_lt.mp hx
      exact hd
  · have hrow : (g.set y.toNat ((g.getD y.toNat []).set x.toNat TileType.EMPTY)).getD
        y.toNat [] = ([] : List TileType) := by
      apply List.getD_eq_default
      simpa using not_lt.mp hy
    rw [hrow]
    rfl

/-- `updateNeighborConnections` only rebuilds sprites; tile reads are
unchanged. -/
lemma getTileAt_updateNeighborConnections (tm : TilemapState) (cx cy x y : Int) :
    getTileAt (updateNeighborConnections tm cx cy) x y = getTileAt tm x y := rfl

/-! ## Claim theorems: tile world model -/

/-- C1 (amended): an in-range `destroyTile(x,y)` returns `true` exactly
when a sprite is registered for `(x,y)` (in particular it returns `false`
on an in-range cell without a sprite, such as an Empty cell); whenever it
returns `true` the cell is set to Empty. -/
theorem destroyTile_true_iff (tm : TilemapState) (x y : Int) :
    ((destroyTile tm x y).1 = true ↔
      (0 ≤ x ∧ 0 ≤ y ∧ x < tm.world.width ∧ y < tm.world.height ∧ tm.sprites x y = true))
    ∧ ((destroyTile tm x y).1 = true →
        getTileAt (destroyTile tm x y).2 x y = some TileType.EMPTY) := by
  unfold destroyTile
  split_ifs with h1 h2
  · constructor
    · simp only [Bool.false_eq_true, false_iff]
      intro ⟨hx0, hy0, hxw, hyh, _⟩
      rcases h1 with h | h | h | h <;> omega
    · simp
  · constructor
    · simp only [Bool.false_eq_true, false_iff]
      intro ⟨_, _, _, _, hs⟩
      rw [hs] at h2
      simp at h2
    · simp
  · constructor
    · simp only [true_iff]
      push_neg at h1
      refine ⟨h1.1, h1.2.1, h1.2.2.1, h1.2.2.2, ?_⟩
      cases hb : tm.sprites x y
      · exact absurd hb h2
      · rfl
    · intro _
      rw [getTileAt_updateNeighborConnections]
      unfold getTileAt
      push_neg at h1
      rw [if_neg (by push_neg; exact h1)]
      exact congrArg some (setTile2D_getD_self tm.world.tiles y x)

/-- C1 witness: on a 1×1 world holding a Dirt tile with its sprite
registered, `destroyTile(0,0)` returns `true` and empties the cell. -/
theorem destroyTile_true_iff_witness :
    (destroyTile ⟨⟨[[TileType.DIRT]], 1, 1, 0⟩, fun _ _ => true⟩ 0 0).1 = true ∧
      getTileAt (destroyTile ⟨⟨[[TileType.DIRT]], 1, 1, 0⟩, fun _ _ => true⟩ 0 0).2 0 0 =
        some TileType.EMPTY := by
  refine ⟨?_, ?_⟩
  · exact (destroyTile_true_iff ⟨⟨[[TileType.DIRT]], 1, 1, 0⟩, fun _ _ => true⟩ 0 0).1.mpr
      (by refine ⟨by decide, by decide, by decide, by decide, rfl⟩)
  · exact (destroyTile_true_iff ⟨⟨[[TileType.DIRT]], 1, 1, 0⟩, fun _ _ => true⟩ 0 0).2
      ((destroyTile_true_iff ⟨⟨[[TileType.DIRT]], 1, 1, 0⟩, fun _ _ => true⟩ 0 0).1.mpr
        (by refine ⟨by decide, by decide, by decide, by decide, rfl⟩))

/-- C1 counterexample: a 1×1 world whose single cell is Empty (so no
sprite is registered, as after generation): `(0,0)` is in range yet
`destroyTile(0,0)` returns `false`, refuting "returns true unconditionally
when in range, regardless of the cell's current tile type". -/
theorem destroyTile_inRange_returns_false :
    (0:Int) ≤ 0 ∧ (0:Int) < (1:Int) ∧
      (destroyTile ⟨⟨[[TileType.EMPTY]], 1, 1, 0⟩, fun _ _ => false⟩ 0 0).1 = false := by
  refine ⟨le_refl 0, by decide, rfl⟩

/-- C7: out-of-range tile queries are total: `getTileAt` returns `null`
and `isSolid` returns `false` for every coordinate outside
`[0,width)×[0,height)`. -/
theorem getTileAt_isSolid_out_of_range (tm : TilemapState) (x y : Int)
    (h : x < 0 ∨ y < 0 ∨ x ≥ tm.world.width ∨ y ≥ tm.world.height) :
    getTileAt tm x y = none ∧ isSolid tm x y = false := by
  have hg : getTileAt tm x y = none := by
    unfold getTileAt
    exact if_pos h
  exact ⟨hg, by unfold isSolid; rw [hg]⟩

/-- C7 witness: on a concrete 1×1 world, the query at `(-1, 5)` is out of
range, `getTileAt` is `null` and `isSolid` is `false`. -/
theorem getTileAt_isSolid_out_of_range_witness :
    getTileAt ⟨⟨[[TileType.DIRT]], 1, 1, 0⟩, fun _ _ => true⟩ (-1) 5 = none ∧
      isSolid ⟨⟨[[TileType.DIRT]], 1, 1, 0⟩, fun _ _ => true⟩ (-1) 5 = false :=
  getTileAt_isSolid_out_of_range ⟨⟨[[TileType.DIRT]], 1, 1, 0⟩, fun _ _ => true⟩ (-1) 5
    (Or.inl (by decide))

/-- C10: whenever `destroyTile(x,y)` returns `false` — out of range or no
registered sprite — the tile grid is left completely unchanged. -/
theorem destroyTile_false_grid_unchanged (tm : TilemapState) (x y : Int)
    (h : (destroyTile tm x y).1 = false) :
    (destroyTile tm x y).2.world.tiles = tm.world.tiles := by
  unfold destroyTile at h ⊢
  split_ifs at h ⊢ <;> simp_all

/-- C10 witness: destroying at the out-of-range coordinate `(5,5)` of a
1×1 world returns `false` and leaves the grid unchanged. -/
theorem destroyTile_false_grid_unchanged_witness :
    (destroyTile ⟨⟨[[TileType.DIRT]], 1, 1, 0⟩, fun _ _ => true⟩ 5 5).2.world.tiles =
      [[TileType.DIRT]] :=
  destroyTile_false_grid_unchanged ⟨⟨[[TileType.DIRT]], 1, 1, 0⟩, fun _ _ => true⟩ 5 5
    (by decide)

/-! ## Claim theorems: seeded RNG -/

/-- One `next` call from a nonnegative state follows the mathematical-mod
recurrence and stays in `[0, 2^32)`. -/
lemma rng_next_step (st : RNGState) (h : 0 ≤ st.current) :
    (RNG.next st).2.current = (RNG.a * st.current + RNG.c) % RNG.m ∧
    0 ≤ (RNG.next st).2.current ∧ (RNG.next st).2.current < RNG.m := by
  have hargs : 0 ≤ RNG.a * st.current + RNG.c := by
    have ha : (0:Int) ≤ RNG.a := by norm_num [RNG.a]
    have hmul : 0 ≤ RNG.a * st.current := mul_nonneg ha h
    have hc : (0:Int) ≤ RNG.c := by norm_num [RNG.c]
    omega
  have hm : (0:Int) ≤ RNG.m := by norm_num [RNG.m]
  have heq : (RNG.next st).2.current = (RNG.a * st.current + RNG.c) % RNG.m :=
    Int.tmod_eq_emod hargs hm
  refine ⟨heq, ?_, ?_⟩
  · rw [heq]
    exact Int.emod_nonneg _ (by norm_num [RNG.m])
  · rw [heq]
    exact Int.emod_lt_of_pos _ (by norm_num [RNG.m])

/-- The iterated states agree with `lcgSpecState` and stay nonnegative. -/
lemma rng_stateAfter_spec (s : Int) (hs : 0 ≤ s) (n : ℕ) :
    (RNG.stateAfter (mkRNG (some s) 0) n).current = lcgSpecState s n ∧
    0 ≤ (RNG.stateAfter (mkRNG (some s) 0) n).current := by
  induction n with
  | zero => exact ⟨rfl, hs⟩
  | succ k ih =>
      have hstep : RNG.stateAfter (mkRNG (some s) 0) (k+1) =
          (RNG.next (RNG.stateAfter (mkRNG (some s) 0) k)).2 :=
        Function.iterate_succ_apply' _ _ _
      obtain ⟨hval, hpos⟩ := ih
      obtain ⟨heq, hnn, _⟩ := rng_next_step _ hpos
      rw [hstep]
      constructor
      · rw [heq, hval]
        rfl
      · exact hnn

/-- C5 (amended): for every **nonnegative** integer seed, every call to
`next()` returns a value in `[0,1)`, the state evolves as
`state = (1664525*state + 1013904223) mod 2^32` and the output equals
`state / 2^32`.  (For a negative seed the JS `%` operator produces a
negative remainder and the output can be negative.) -/
theorem rng_next_spec (s : Int) (hs : 0 ≤ s) (n : ℕ) :
    (RNG.stateAfter (mkRNG (some s) 0) (n+1)).current = lcgSpecState s (n+1) ∧
    (RNG.next (RNG.stateAfter (mkRNG (some s) 0) n)).1 =
      ((lcgSpecState s (n+1) : ℚ)) / ((RNG.m : ℚ)) ∧
    0 ≤ (RNG.next (RNG.stateAfter (mkRNG (some s) 0) n)).1 ∧
    (RNG.next (RNG.stateAfter (mkRNG (some s) 0) n)).1 < 1 := by
  have hstep : RNG.stateAfter (mkRNG (some s) 0) (n+1) =
      (RNG.next (RNG.stateAfter (mkRNG (some s) 0) n)).2 :=
    Function.iterate_succ_apply' _ _ _
  obtain ⟨hval, hpos⟩ := rng_stateAfter_spec s hs n
  obtain ⟨hval', hpos'⟩ := rng_stateAfter_spec s hs (n+1)
  have hout : (RNG.next (RNG.stateAfter (mkRNG (some s) 0) n)).1 =
      (((RNG.next (RNG.stateAfter (mkRNG (some s) 0) n)).2.current : ℚ)) /
        ((RNG.m : ℚ)) := rfl
  obtain ⟨_, hnn, hlt⟩ := rng_next_step _ hpos
  have hcur : (RNG.next (RNG.stateAfter (mkRNG (some s) 0) n)).2.current =
      lcgSpecState s (n+1) := by
    rw [← hstep]
    exact hval'
  refine ⟨hval', ?_, ?_, ?_⟩
  · rw [hout, hcur]
  · rw [hout]
    apply div_nonneg
    · exact_mod_cast hnn
    · norm_num [RNG.m]
  · rw [hout]
    rw [div_lt_one (by norm_num [RNG.m])]
    exact_mod_cast hlt

/-- C5 witness: the theorem applied at seed 42, first call. -/
theorem rng_next_spec_witness :
    (RNG.stateAfter (mkRNG (some 42) 0) 1).current = lcgSpecState 42 1 ∧
    (RNG.next (RNG.stateAfter (mkRNG (some 42) 0) 0)).1 =
      ((lcgSpecState 42 1 : ℚ)) / ((RNG.m : ℚ)) ∧
    0 ≤ (RNG.next (RNG.stateAfter (mkRNG (some 42) 0) 0)).1 ∧
    (RNG.next (RNG.stateAfter (mkRNG (some 42) 0) 0)).1 < 1 :=
  rng_next_spec 42 (by norm_num) 0

/-- C5 counterexample: constructed with the integer seed `-1000`, the very
first `next()` output is negative, hence not in `[0,1)` — JS `%` is a
truncated remainder, not a mathematical mod. -/
theorem rng_negative_seed_output_negative :
    (RNG.next (mkRNG (some (-1000)) 0)).1 < 0 := by
  have h : (RNG.next (mkRNG (some (-1000)) 0)).1 =
      ((-650620777 : ℚ)) / ((4294967296 : ℚ)) := by
    have ht : Int.tmod (RNG.a * (-1000) + RNG.c) RNG.m = -650620777 := by decide
    simp only [RNG.next, mkRNG, Option.getD, ht]
    norm_num [RNG.m]
  rw [h]
  norm_num

/-- C6: world generation and the RNG are deterministic in the seed: with
the seed supplied, the clock value is ignored, so two runs with the same
seed and parameters produce identical worlds, and two RNGs with the same
seed driven by the same call sequence produce identical outputs. -/
theorem generation_deterministic (sinq : ℚ → ℚ) (ps : GenerationParamsArg)
    (s now1 now2 : Int) (calls : List RNGCall) :
    generate sinq { ps with seed := some s } now1 =
      generate sinq { ps with seed := some s } now2 ∧
    runCalls (mkRNG (some s) now1) calls = runCalls (mkRNG (some s) now2) calls := by
  exact ⟨rfl, rfl⟩

/-! ## Claim theorems: world generation branch structure -/

/-- C4 (amended): a generated cell is Empty with no RNG draw exactly when
`y < surfaceDepth`, or `y` is above the adjusted surface
`surfaceDepth + sin(x*0.2)*2`, or the cell lies at `y ≥ surfaceDepth +
dirtDepth` and the cave-noise value exceeds 0.6; and every cell with
`surfaceDepth ≤ y`, at or below the adjusted surface, with
`y < surfaceDepth + dirtDepth`, draws exactly one random boolean at
probability 0.02 and becomes Ore on true and Dirt on false. -/
theorem generateTileAt_empty_iff (sinq : ℚ → ℚ) (height surfaceDepth dirtDepth x y : Int)
    (rng : RNGState) :
    (((generateTileAt sinq height surfaceDepth dirtDepth x y rng).1 = TileType.EMPTY ∧
        (generateTileAt sinq height surfaceDepth dirtDepth x y rng).2.2 = 0) ↔
      (y < surfaceDepth ∨
       (y:ℚ) < (surfaceDepth:ℚ) + sinq ((x:ℚ) * (1/5)) * 2 ∨
       (surfaceDepth + dirtDepth ≤ y ∧ simplexNoise sinq x y (1/10) > 3/5)))
    ∧ (surfaceDepth ≤ y →
        ¬ ((y:ℚ) < (surfaceDepth:ℚ) + sinq ((x:ℚ) * (1/5)) * 2) →
        y < surfaceDepth + dirtDepth →
        (generateTileAt sinq height surfaceDepth dirtDepth x y rng).2.2 = 1 ∧
        (generateTileAt sinq height surfaceDepth dirtDepth x y rng).2.1 = (RNG.next rng).2 ∧
        ((generateTileAt sinq height surfaceDepth dirtDepth x y rng).1 = TileType.ORE ↔
          (RNG.next rng).1 < 2/100) ∧
        ((generateTileAt sinq height surfaceDepth dirtDepth x y rng).1 = TileType.DIRT ↔
          ¬ ((RNG.next rng).1 < 2/100))) := by
  rcases hnext : RNG.next rng with ⟨v, st'⟩
  simp only [generateTileAt, RNG.nextBool, hnext]
  by_cases h1 : y < surfaceDepth
  · rw [if_pos h1]
    refine ⟨by simp [h1], fun hy _ _ => absurd hy (not_le.mpr h1)⟩
  · rw [if_neg h1]
    by_cases h2 : (y:ℚ) < (surfaceDepth:ℚ) + sinq ((x:ℚ) * (1/5)) * 2
    · rw [if_pos h2]
      refine ⟨⟨fun _ => Or.inr (Or.inl h2), fun _ => ⟨rfl, rfl⟩⟩,
        fun _ hadj _ => absurd h2 hadj⟩
    · rw [if_neg h2]
      by_cases h3 : y < surfaceDepth + dirtDepth
      · rw [if_pos h3]
        refine ⟨⟨fun hl => ?_, fun hr => ?_⟩, fun _ _ _ => ?_⟩
        · exact absurd hl.2 one_ne_zero
        · rcases hr with h | h | ⟨h, _⟩
          · exact absurd h h1
          · exact absurd h h2
          · exact absurd h (by omega)
        · refine ⟨rfl, rfl, ?_, ?_⟩
          · by_cases hv : v < 2/100 <;> simp [hv]
          · by_cases hv : v < 2/100 <;> simp [hv]
      · rw [if_neg h3]
        by_cases h4 : simplexNoise sinq x y (1/10) > 3/5
        · rw [if_pos h4]
          refine ⟨⟨fun _ => Or.inr (Or.inr ⟨by omega, h4⟩), fun _ => ⟨rfl, rfl⟩⟩,
            fun _ _ hlt => absurd hlt h3⟩
        · rw [if_neg h4]
          refine ⟨⟨fun hl => ?_, fun hr => ?_⟩, fun _ _ hlt => absurd hlt h3⟩
          · have h0 := hl.2
            split_ifs at h0
          · rcases hr with h | h | ⟨_, h⟩
            · exact absurd h h1
            · exact absurd h h2
            · exact absurd h h4

/-- C4 witness: the dirt-band part of the theorem at a concrete cell —
`sinq ≡ 0`, surfaceDepth 5, dirtDepth 20, cell `(0, 10)`: exactly one draw,
Ore iff the draw is below 0.02. -/
theorem generateTileAt_empty_iff_witness :
    (((generateTileAt (fun _ => 0) 128 5 20 0 10 (mkRNG (some 7) 0)).1 = TileType.EMPTY ∧
        (generateTileAt (fun _ => 0) 128 5 20 0 10 (mkRNG (some 7) 0)).2.2 = 0) ↔
      ((10:Int) < 5 ∨
       (10:ℚ) < ((5:Int):ℚ) + (fun _ : ℚ => (0:ℚ)) (((0:Int):ℚ) * (1/5)) * 2 ∨
       ((5:Int) + 20 ≤ 10 ∧ simplexNoise (fun _ => 0) 0 10 (1/10) > 3/5)))
    ∧ ((generateTileAt (fun _ => 0) 128 5 20 0 10 (mkRNG (some 7) 0)).2.2 = 1 ∧
        (generateTileAt (fun _ => 0) 128 5 20 0 10 (mkRNG (some 7) 0)).2.1 =
          (RNG.next (mkRNG (some 7) 0)).2 ∧
        ((generateTileAt (fun _ => 0) 128 5 20 0 10 (mkRNG (some 7) 0)).1 = TileType.ORE ↔
          (RNG.next (mkRNG (some 7) 0)).1 < 2/100) ∧
        ((generateTileAt (fun _ => 0) 128 5 20 0 10 (mkRNG (some 7) 0)).1 = TileType.DIRT ↔
          ¬ ((RNG.next (mkRNG (some 7) 0)).1 < 2/100))) :=
  ⟨(generateTileAt_empty_iff (fun _ => 0) 128 5 20 0 10 (mkRNG (some 7) 0)).1,
   (generateTileAt_empty_iff (fun _ => 0) 128 5 20 0 10 (mkRNG (some 7) 0)).2
     (by norm_num) (by norm_num) (by norm_num)⟩

/-- C4 counterexample: the claim as stated — "Empty with no RNG draw
exactly when `y` is above `surfaceDepth + sin(x*0.2)*2`, and every cell at
or below that adjusted surface with `y < surfaceDepth + dirtDepth` draws
one boolean" — fails: with a sine oracle taking value `-3/4` at `4`
(`Math.sin(20*0.2) = sin 4 ≈ -0.757` also lies in `[-1, -1/2]`), the cell
`(20, 4)` of the default 32×128 world has `y = 4` below the adjusted
surface `3.5` yet is generated Empty with no draw by the `y < surfaceDepth`
branch. -/
theorem generateTileAt_empty_iff_refuted :
    ¬ (∀ (sinq : ℚ → ℚ), (∀ t, -1 ≤ sinq t ∧ sinq t ≤ 1) →
        ∀ (x y : Int) (rng : RNGState), 0 ≤ x → x < 32 → 0 ≤ y → y < 128 →
        ((((generateTileAt sinq 128 5 20 x y rng).1 = TileType.EMPTY ∧
            (generateTileAt sinq 128 5 20 x y rng).2.2 = 0) ↔
          (y:ℚ) < ((5:Int):ℚ) + sinq ((x:ℚ) * (1/5)) * 2)
         ∧ (¬ ((y:ℚ) < ((5:Int):ℚ) + sinq ((x:ℚ) * (1/5)) * 2) → y < 5 + 20 →
             (generateTileAt sinq 128 5 20 x y rng).2.2 = 1 ∧
             ((generateTileAt sinq 128 5 20 x y rng).1 = TileType.ORE ∨
              (generateTileAt sinq 128 5 20 x y rng).1 = TileType.DIRT)))) := by
  intro h
  have hb : ∀ t : ℚ, -1 ≤ (if t = 4 then (-3/4 : ℚ) else 0) ∧
      (if t = 4 then (-3/4 : ℚ) else 0) ≤ 1 := by
    intro t
    split_ifs <;> norm_num
  obtain ⟨hiff, _⟩ := h (fun t => if t = 4 then (-3/4 : ℚ) else 0) hb 20 4
    (mkRNG (some 0) 0) (by norm_num) (by norm_num) (by norm_num) (by norm_num)
  have heval : generateTileAt (fun t => if t = 4 then (-3/4 : ℚ) else 0) 128 5 20 20 4
      (mkRNG (some 0) 0) = (TileType.EMPTY, mkRNG (some 0) 0, 0) := rfl
  rw [heval] at hiff
  have harg : ((20:Int):ℚ) * (1/5) = 4 := by norm_num
  rw [harg] at hiff
  simp only [if_pos rfl] at hiff
  have h4 : ((4:Int):ℚ) < ((5:Int):ℚ) + (-3/4 : ℚ) * 2 := hiff.mp (by simp)
  norm_num at h4

/-! ## Claim theorems: collision resolution -/

/-- Overlap area `overlapX * overlapY` of a scanned cell. -/
def overlapArea (b : Body) (p : Int × Int) : ℚ :=
  overlapX b p.1 * overlapY b p.2

/-- Every candidate passes the 0.5px thresholds, so its area exceeds 1/4. -/
lemma candidate_area_pos {tm : TilemapState} {b : Body} {p : Int × Int}
    (h : isCandidate tm b p.1 p.2 = true) : 1/4 < overlapArea b p := by
  unfold isCandidate at h
  simp only [Bool.and_eq_true, decide_eq_true_eq] at h
  obtain ⟨⟨_, hx⟩, hy⟩ := h
  have := mul_lt_mul'' hx hy (by norm_num) (by norm_num)
  calc (1/4 : ℚ) = 1/2 * (1/2) := by norm_num
  _ < overlapX b p.1 * overlapY b p.2 := this
  _ = overlapArea b p := rfl

/-- Characterisation of the `maxOverlap`/`bestResolution` fold: either no
candidate beats the accumulator (result unchanged), or the result is the
resolution of a candidate of maximal area. -/
lemma collideFold_spec (tm : TilemapState) (b : Body) :
    ∀ (l : List (Int × Int)) (macc : ℚ) (r : Option TileResolution),
      (l.foldl (collideFoldStep tm b) (macc, r) = (macc, r) ∧
        ∀ p ∈ l, isCandidate tm b p.1 p.2 = true → overlapArea b p ≤ macc)
      ∨ (∃ p ∈ l, isCandidate tm b p.1 p.2 = true ∧
          l.foldl (collideFoldStep tm b) (macc, r) =
            (overlapArea b p, some (resolveTile b p.1 p.2)) ∧
          macc < overlapArea b p ∧
          ∀ q ∈ l, isCandidate tm b q.1 q.2 = true → overlapArea b q ≤ overlapArea b p) := by
  intro l
  induction l with
  | nil =>
      intro macc r
      left
      exact ⟨rfl, by simp⟩
  | cons p rest ih =>
      intro macc r
      by_cases hc : isCandidate tm b p.1 p.2 = true
      · by_cases hgt : macc < overlapArea b p
        · have hgtP : overlapX b p.1 * overlapY b p.2 > ((macc, r) : ℚ × Option TileResolution).1 :=
            hgt
          have hstep : collideFoldStep tm b (macc, r) p =
              (overlapArea b p, some (resolveTile b p.1 p.2)) := by
            unfold collideFoldStep
            rw [if_pos hc, if_pos hgtP]
            rfl
          rcases ih (overlapArea b p) (some (resolveTile b p.1 p.2)) with
            ⟨heq, hall⟩ | ⟨q, hq, hqc, heq, hlt, hall⟩
          · right
            refine ⟨p, List.mem_cons_self p rest, hc, ?_, hgt, ?_⟩
            · rw [List.foldl_cons, hstep, heq]
            · intro q hq hqc
              rcases List.mem_cons.mp hq with rfl | hq'
              · exact le_refl _
              · exact hall q hq' hqc
          · right
            refine ⟨q, List.mem_cons_of_mem p hq, hqc, ?_, lt_trans hgt hlt, ?_⟩
            · rw [List.foldl_cons, hstep, heq]
            · intro q' hq' hq'c
              rcases List.mem_cons.mp hq' with rfl | hq''
              · exact le_of_lt hlt
              · exact hall q' hq'' hq'c
        · have hgtP : ¬ overlapX b p.1 * overlapY b p.2 >
              ((macc, r) : ℚ × Option TileResolution).1 := fun hh => hgt hh
          have hstep : collideFoldStep tm b (macc, r) p = (macc, r) := by
            unfold collideFoldStep
            rw [if_pos hc, if_neg hgtP]
          rcases ih macc r with ⟨heq, hall⟩ | ⟨q, hq, hqc, heq, hlt, hall⟩
          · left
            refine ⟨by rw [List.foldl_cons, hstep, heq], ?_⟩
            intro q hq hqc
            rcases List.mem_cons.mp hq with rfl | hq'
            · exact le_of_not_lt hgt
            · exact hall q hq' hqc
          · right
            refine ⟨q, List.mem_cons_of_mem p hq, hqc, ?_, hlt, ?_⟩
            · rw [List.foldl_cons, hstep, heq]
            · intro q' hq' hq'c
              rcases List.mem_cons.mp hq' with rfl | hq''
              · exact le_trans (le_of_not_lt hgt) (le_of_lt hlt)
              · exact hall q' hq'' hq'c
      · have hstep : collideFoldStep tm b (macc, r) p = (macc, r) := by
          unfold collideFoldStep
          rw [if_neg hc]
        rcases ih macc r with ⟨heq, hall⟩ | ⟨q, hq, hqc, heq, hlt, hall⟩
        · left
          refine ⟨by rw [List.foldl_cons, hstep, heq], ?_⟩
          intro q hq hqc
          rcases List.mem_cons.mp hq with rfl | hq'
          · exact absurd hqc hc
          · exact hall q hq' hqc
        · right
          refine ⟨q, List.mem_cons_of_mem p hq, hqc, ?_, hlt, ?_⟩
          · rw [List.foldl_cons, hstep, heq]
          · intro q' hq' hq'c
            rcases List.mem_cons.mp hq' with rfl | hq''
            · exact absurd hq'c hc
            · exact hall q' hq'' hq'c

/-- The scan result characterised against the candidate list. -/
lemma collideFold_none_or_best (tm : TilemapState) (b : Body) :
    (collideFold tm b = (0, none) ∧ candidates tm b = [])
    ∨ (∃ p ∈ candidates tm b,
        collideFold tm b = (overlapArea b p, some (resolveTile b p.1 p.2)) ∧
        ∀ q ∈ candidates tm b, overlapArea b q ≤ overlapArea b p) := by
  rcases collideFold_spec tm b (scanPairs b) 0 none with ⟨heq, hall⟩ | ⟨p, hp, hpc, heq, _, hall⟩
  · left
    refine ⟨heq, ?_⟩
    rw [candidates, List.filter_eq_nil_iff]
    intro q hq hqc
    have h1 := hall q hq hqc
    have h2 := candidate_area_pos hqc
    linarith
  · right
    refine ⟨p, ?_, heq, ?_⟩
    · exact List.mem_filter.mpr ⟨hp, hpc⟩
    · intro q hq
      have hq' := List.mem_filter.mp hq
      exact hall q hq'.1 hq'.2

/-- C3: one collision tick applies at most one positional correction —
either there is no candidate (both thresholds and solidity filtering all
scanned cells out) and the position is unchanged, or the displacement is
exactly the single-axis resolution of one candidate of maximal overlap
area; every other overlapping tile contributes no displacement. -/
theorem collision_single_resolution (tm : TilemapState) (b : Body) :
    (candidates tm b = [] ∧ (collideStep tm b).1.x = b.x ∧ (collideStep tm b).1.y = b.y)
    ∨ (∃ p ∈ candidates tm b,
        (∀ q ∈ candidates tm b, overlapArea b q ≤ overlapArea b p) ∧
        (collideStep tm b).1.x = b.x + (resolveTile b p.1 p.2).dx ∧
        (collideStep tm b).1.y = b.y + (resolveTile b p.1 p.2).dy ∧
        (overlapX b p.1 < overlapY b p.2 →
          (resolveTile b p.1 p.2).dy = 0 ∧ |(resolveTile b p.1 p.2).dx| = overlapX b p.1) ∧
        (¬ overlapX b p.1 < overlapY b p.2 →
          (resolveTile b p.1 p.2).dx = 0 ∧ |(resolveTile b p.1 p.2).dy| = overlapY b p.2)) := by
  rcases collideFold_none_or_best tm b with ⟨heq, hnil⟩ | ⟨p, hp, heq, hmax⟩
  · left
    have hstep : collideStep tm b = (b, groundedCheck tm b) := by
      unfold collideStep
      rw [heq]
    rw [hstep]
    exact ⟨hnil, rfl, rfl⟩
  · right
    have hpc : isCandidate tm b p.1 p.2 = true := (List.mem_filter.mp hp).2
    have hover : 1/2 < overlapX b p.1 ∧ 1/2 < overlapY b p.2 := by
      unfold isCandidate at hpc
      simp only [Bool.and_eq_true, decide_eq_true_eq] at hpc
      exact ⟨hpc.1.2, hpc.2⟩
    have hstep : collideStep tm b =
        ({ b with
            x := b.x + (resolveTile b p.1 p.2).dx
            y := b.y + (resolveTile b p.1 p.2).dy
            vx := if (resolveTile b p.1 p.2).stopVelocityX then 0 else b.vx
            vy := if (resolveTile b p.1 p.2).stopVelocityY then 0 else b.vy },
          groundedCheck tm b) := by
      unfold collideStep
      rw [heq]
    refine ⟨p, hp, hmax, by rw [hstep], by rw [hstep], ?_, ?_⟩
    · intro hxy
      unfold resolveTile
      rw [if_pos hxy]
      split_ifs
      · refine ⟨rfl, ?_⟩
        show |-overlapX b p.1| = overlapX b p.1
        rw [abs_neg]
        exact abs_of_pos (by linarith [hover.1])
      · refine ⟨rfl, ?_⟩
        show |overlapX b p.1| = overlapX b p.1
        exact abs_of_pos (by linarith [hover.1])
    · intro hxy
      unfold resolveTile
      rw [if_neg hxy]
      split_ifs
      · refine ⟨rfl, ?_⟩
        show |-overlapY b p.2| = overlapY b p.2
        rw [abs_neg]
        exact abs_of_pos (by linarith [hover.2])
      · refine ⟨rfl, ?_⟩
        show |overlapY b p.2| = overlapY b p.2
        exact abs_of_pos (by linarith [hover.2])

/-- C2 (amended): when the winning candidate is resolved vertically with
the body's feet penetrating a solid floor tile (body center above the tile
center), the body is displaced upward by exactly the vertical overlap, and
the vertical velocity is zeroed **unconditionally** — there is no
`velocity.y > 0` guard, so an upward-moving body grazing the floor is also
stopped.  (The claim's concrete example — `velocity.y = 5`, feet
overlapping by 1px, displaced up 1px, velocity zeroed — does hold.) -/
theorem collision_floor_vertical (tm : TilemapState) (b : Body) (r : TileResolution)
    (hr : (collideFold tm b).2 = some r) (hdx : r.dx = 0) (hdy : r.dy < 0) :
    ∃ p ∈ candidates tm b,
      r = resolveTile b p.1 p.2 ∧
      b.centerY < (p.2 : ℚ) * 32 + 16 ∧
      r.dy = -overlapY b p.2 ∧
      (collideStep tm b).1.y = b.y - overlapY b p.2 ∧
      (collideStep tm b).1.vy = 0 := by
  rcases collideFold_none_or_best tm b with ⟨heq, _⟩ | ⟨p, hp, heq, _⟩
  · rw [heq] at hr
    simp at hr
  · rw [heq] at hr
    simp only [Option.some.injEq] at hr
    have hpc : isCandidate tm b p.1 p.2 = true := (List.mem_filter.mp hp).2
    have hover : 1/2 < overlapX b p.1 ∧ 1/2 < overlapY b p.2 := by
      unfold isCandidate at hpc
      simp only [Bool.and_eq_true, decide_eq_true_eq] at hpc
      exact ⟨hpc.1.2, hpc.2⟩
    by_cases hxy : overlapX b p.1 < overlapY b p.2
    · exfalso
      unfold resolveTile at hr
      rw [if_pos hxy] at hr
      split_ifs at hr
      · rw [← hr] at hdx
        simp only [] at hdx
        have : overlapX b p.1 = 0 := by
          have := neg_eq_zero.mp hdx
          exact this
        linarith [hover.1]
      · rw [← hr] at hdx
        simp only [] at hdx
        linarith [hover.1]
    · by_cases hcy : b.centerY < (p.2 : ℚ) * 32 + 16
      · have hres : resolveTile b p.1 p.2 = ⟨0, -overlapY b p.2, false, true⟩ := by
          unfold resolveTile
          rw [if_neg hxy, if_pos hcy]
        have hstep : collideStep tm b =
            ({ b with
                x := b.x + r.dx
                y := b.y + r.dy
                vx := if r.stopVelocityX then 0 else b.vx
                vy := if r.stopVelocityY then 0 else b.vy },
              groundedCheck tm b) := by
          unfold collideStep
          have hr2 : (collideFold tm b).2 = some r := by rw [heq, hr]
          rw [hr2]
        refine ⟨p, hp, hr.symm, hcy, ?_, ?_, ?_⟩
        · rw [← hr, hres]
        · rw [hstep]
          have : r.dy = -overlapY b p.2 := by rw [← hr, hres]
          simp only [this]
          ring
        · rw [hstep]
          have : r.stopVelocityY = true := by rw [← hr, hres]
          simp [this]
      · exfalso
        unfold resolveTile at hr
        rw [if_neg hxy, if_neg hcy] at hr
        rw [← hr] at hdy
        simp only [] at hdy
        linarith [hover.2]

/-! ### Concrete floor scenario

A 1-column, 3-row world with a solid Dirt tile in row 2 (its top edge at
pixel `y = 64`), and a 16×20 player body at `x = 4`:
* `bodyFall` (`y = 45`): feet at 65, overlapping the floor by exactly 1px,
  moving down (`vy = 5`);
* `bodyRise`: same position, moving up (`vy = -3`);
* `bodyRest` (`y = 44`): bottom exactly on the floor's top edge, at rest. -/

def tmFloor : TilemapState :=
  ⟨⟨[[TileType.EMPTY], [TileType.EMPTY], [TileType.DIRT]], 1, 3, 0⟩, fun _ _ => true⟩

def bodyFall : Body := ⟨4, 45, 16, 20, 0, 5⟩

def bodyRise : Body := ⟨4, 45, 16, 20, 0, -3⟩

def bodyRest : Body := ⟨4, 44, 16, 20, 0, 0⟩

lemma scan_bodyFall : scanPairs bodyFall = [(0, 1), (0, 2)] := by
  simp only [scanPairs, bodyFall, Body.top, Body.bottom, Body.left, Body.right]
  norm_num
  decide

lemma fold_bodyFall : collideFold tmFloor bodyFall = (20, some ⟨0, -1, false, true⟩) := by
  unfold collideFold
  rw [scan_bodyFall]
  simp only [List.foldl_cons, List.foldl_nil]
  norm_num [collideFoldStep, isCandidate, isSolid, getTileAt, tmFloor, bodyFall,
    overlapX, overlapY, resolveTile, Body.left, Body.right, Body.top, Body.bottom,
    Body.centerX, Body.centerY, TileRegistry]
  all_goals decide

lemma candidates_bodyFall : candidates tmFloor bodyFall = [(0, 2)] := by
  unfold candidates
  rw [scan_bodyFall]
  norm_num [isCandidate, isSolid, getTileAt, tmFloor, bodyFall,
    overlapX, overlapY, Body.left, Body.right, Body.top, Body.bottom, TileRegistry]
  all_goals decide

lemma scan_bodyRise : scanPairs bodyRise = [(0, 1), (0, 2)] := by
  simp only [scanPairs, bodyRise, Body.top, Body.bottom, Body.left, Body.right]
  norm_num
  decide

lemma fold_bodyRise : collideFold tmFloor bodyRise = (20, some ⟨0, -1, false, true⟩) := by
  unfold collideFold
  rw [scan_bodyRise]
  simp only [List.foldl_cons, List.foldl_nil]
  norm_num [collideFoldStep, isCandidate, isSolid, getTileAt, tmFloor, bodyRise,
    overlapX, overlapY, resolveTile, Body.left, Body.right, Body.top, Body.bottom,
    Body.centerX, Body.centerY, TileRegistry]
  all_goals decide

/-- C2 witness: the claim's example — `velocity.y = 5`, feet overlapping
the solid floor by 1px — is displaced upward by exactly 1px (to `y = 44`)
with the vertical velocity zeroed. -/
theorem collision_floor_vertical_witness :
    (collideStep tmFloor bodyFall).1.y = 44 ∧ (collideStep tmFloor bodyFall).1.vy = 0 := by
  obtain ⟨p, hp, _, _, _, hy, hvy⟩ :=
    collision_floor_vertical tmFloor bodyFall ⟨0, -1, false, true⟩
      (by rw [fold_bodyFall]) (by norm_num) (by norm_num)
  have hps : p = ((0:Int), (2:Int)) := by
    rw [candidates_bodyFall] at hp
    simpa using hp
  subst hps
  refine ⟨?_, hvy⟩
  rw [hy]
  norm_num [overlapY, bodyFall, Body.bottom, Body.top]

/-- C2 counterexample: the same floor contact with the body moving upward
(`vy = -3`): the winning candidate is still the vertical floor resolution
(displacing up by 1px), and the vertical velocity is zeroed rather than
kept — refuting "the vertical velocity component is zeroed only if the body
is currently moving downward". -/
theorem collision_floor_upward_velocity_zeroed :
    bodyRise.vy < 0 ∧
    (collideFold tmFloor bodyRise).2 = some ⟨0, -1, false, true⟩ ∧
    (collideStep tmFloor bodyRise).1.y = bodyRise.y - 1 ∧
    (collideStep tmFloor bodyRise).1.vy = 0 ∧
    ¬ (collideStep tmFloor bodyRise).1.vy = bodyRise.vy := by
  have h2 : (collideFold tmFloor bodyRise).2 = some ⟨0, -1, false, true⟩ := by
    rw [fold_bodyRise]
  refine ⟨by norm_num [bodyRise], h2, ?_, ?_, ?_⟩
  · simp only [collideStep, h2]
    norm_num [bodyRise]
  · simp only [collideStep, h2]
    simp
  · simp only [collideStep, h2]
    norm_num [bodyRise]

/-- `checkTileCollisions` computes the grounded flag from the incoming body
state, unchanged by whichever resolution is applied. -/
lemma collideStep_snd (tm : TilemapState) (b : Body) :
    (collideStep tm b).2 = groundedCheck tm b := by
  unfold collideStep
  cases hcf : (collideFold tm b).2 <;> rfl

/-- C8: the grounded flag is true iff the vertical velocity is at least
`-0.5` and one of the two foot probes `(left+2, bottom+1)`,
`(right-2, bottom+1)` (in tile coordinates) hits a solid tile; and a
stationary body whose bottom rests exactly on the top edge of the solid
row (with no solid tile intruding into its bounding box rows above) is a
fixed point of the resolution step and stays grounded for any number of
ticks. -/
theorem grounded_iff_and_stability :
    (∀ (tm : TilemapState) (b : Body),
      ((collideStep tm b).2 = true ↔
        (-(1/2) ≤ b.vy ∧
          (isSolid tm ⌊(b.left + 2) / 32⌋ ⌊(b.bottom + 1) / 32⌋ = true ∨
           isSolid tm ⌊(b.right - 2) / 32⌋ ⌊(b.bottom + 1) / 32⌋ = true))))
    ∧ (∀ (tm : TilemapState) (b : Body) (k : Int) (n : ℕ),
        b.vy = 0 →
        b.bottom = 32 * (k : ℚ) →
        (isSolid tm ⌊(b.left + 2) / 32⌋ k = true ∨
         isSolid tm ⌊(b.right - 2) / 32⌋ k = true) →
        (∀ p ∈ scanPairs b, isSolid tm p.1 p.2 = true → p.2 = k) →
        (fun bb => (collideStep tm bb).1)^[n] b = b ∧ (collideStep tm b).2 = true) := by
  constructor
  · intro tm b
    rw [collideStep_snd]
    unfold groundedCheck
    simp only [Bool.and_eq_true, Bool.or_eq_true, decide_eq_true_eq, ge_iff_le]
  · intro tm b k n hvy hbot hfoot hscan
    have hnil : candidates tm b = [] := by
      rw [candidates, List.filter_eq_nil_iff]
      intro p hp hc
      have hk : p.2 = k := by
        apply hscan p hp
        unfold isCandidate at hc
        simp only [Bool.and_eq_true] at hc
        exact hc.1.1
      have hthr : (1/2 : ℚ) < overlapY b p.2 := by
        unfold isCandidate at hc
        simp only [Bool.and_eq_true, decide_eq_true_eq] at hc
        exact hc.2
      rw [hk] at hthr
      unfold overlapY at hthr
      rw [hbot] at hthr
      have : min ((32:ℚ) * k - k * 32) ((k : ℚ) * 32 + 32 - b.top) ≤ 0 := by
        apply le_trans (min_le_left _ _)
        ring_nf
        exact le_refl 0
      linarith [hthr, this]
    have heq : collideFold tm b = (0, none) := by
      rcases collideFold_none_or_best tm b with ⟨heq, _⟩ | ⟨p, hp, _, _⟩
      · exact heq
      · rw [hnil] at hp
        exact absurd hp (List.not_mem_nil p)
    have hfix : (collideStep tm b).1 = b := by
      unfold collideStep
      rw [heq]
    have hfeet : ⌊(b.bottom + 1) / 32⌋ = k := by
      have hv : (b.bottom + 1) / 32 = (k : ℚ) + 1/32 := by
        rw [hbot]
        ring
      rw [hv, Int.floor_eq_iff]
      constructor
      · linarith
      · linarith
    constructor
    · exact Function.iterate_fixed hfix n
    · rw [collideStep_snd]
      unfold groundedCheck
      rw [hfeet, hvy]
      rcases hfoot with hf | hf <;>
        simp only [hf, Bool.or_true, Bool.true_or, Bool.and_true] <;>
        norm_num

/-- C8 witness: on the concrete floor world, the resting body (`vy = 0`,
bottom exactly at pixel 64, the top edge of the solid row 2) is unchanged
by 7 resolution ticks and remains grounded. -/
theorem grounded_iff_and_stability_witness :
    (fun bb => (collideStep tmFloor bb).1)^[7] bodyRest = bodyRest ∧
      (collideStep tmFloor bodyRest).2 = true := by
  have hvy : bodyRest.vy = 0 := rfl
  have hbot : bodyRest.bottom = 32 * ((2 : Int) : ℚ) := by
    norm_num [Body.bottom, bodyRest]
  have hfoot : isSolid tmFloor ⌊(bodyRest.left + 2) / 32⌋ 2 = true ∨
      isSolid tmFloor ⌊(bodyRest.right - 2) / 32⌋ 2 = true := by
    left
    have h0 : ⌊(bodyRest.left + 2) / 32⌋ = (0 : Int) := by
      norm_num [Body.left, bodyRest]
    rw [h0]
    decide
  have hscan : ∀ p ∈ scanPairs bodyRest, isSolid tmFloor p.1 p.2 = true → p.2 = 2 := by
    have hs : scanPairs bodyRest = [(0, 1), (0, 2)] := by
      simp only [scanPairs, bodyRest, Body.top, Body.bottom, Body.left, Body.right]
      norm_num
      decide
    rw [hs]
    intro p hp hsolid
    simp only [List.mem_cons, List.not_mem_nil, or_false] at hp
    rcases hp with rfl | rfl
    · exact absurd hsolid (by decide)
    · rfl
  exact grounded_iff_and_stability.2 tmFloor bodyRest 2 7 hvy hbot hfoot hscan

/-- C3 witness: the single-resolution theorem applied to the concrete
falling body overlapping the floor world. -/
theorem collision_single_resolution_witness :
    (candidates tmFloor bodyFall = [] ∧ (collideStep tmFloor bodyFall).1.x = bodyFall.x ∧
      (collideStep tmFloor bodyFall).1.y = bodyFall.y)
    ∨ (∃ p ∈ candidates tmFloor bodyFall,
        (∀ q ∈ candidates tmFloor bodyFall, overlapArea bodyFall q ≤ overlapArea bodyFall p) ∧
        (collideStep tmFloor bodyFall).1.x = bodyFall.x + (resolveTile bodyFall p.1 p.2).dx ∧
        (collideStep tmFloor bodyFall).1.y = bodyFall.y + (resolveTile bodyFall p.1 p.2).dy ∧
        (overlapX bodyFall p.1 < overlapY bodyFall p.2 →
          (resolveTile bodyFall p.1 p.2).dy = 0 ∧
            |(resolveTile bodyFall p.1 p.2).dx| = overlapX bodyFall p.1) ∧
        (¬ overlapX bodyFall p.1 < overlapY bodyFall p.2 →
          (resolveTile bodyFall p.1 p.2).dx = 0 ∧
            |(resolveTile bodyFall p.1 p.2).dy| = overlapY bodyFall p.2)) :=
  collision_single_resolution tmFloor bodyFall

/-! ## Claim theorems: mining progress -/

/-- One `update` tick while a session's preconditions hold (mining intent
resolves to `d`, grounded, cooldown expired, solid target equal to the
active session's target): the progress advances by exactly
`(miningSpeed / hardness) * (delta/1000)` with the session's stored
hardness; if the new value stays below 1 nothing else changes, otherwise
the tile is broken. -/
lemma miningUpdate_session_eval
    (sys : MiningSysState) (tm : TilemapState) (input : MiningInput)
    (px py delta : ℚ) (d : MiningDirection) (tx ty : Int) (tt : TileType)
    (hdir : getMiningDirection input = d) (hd : d ≠ MiningDirection.NONE)
    (hcool : sys.landingCooldownTimer ≤ 0) (hwg : sys.wasGroundedLastFrame = true)
    (htgt : getTargetTile px py d = some (tx, ty))
    (htile : getTileAt tm tx ty = some tt)
    (hsolid : (TileRegistry tt).solid = true)
    (hact : sys.state.isActive = true)
    (hx : sys.state.targetX = tx) (hy : sys.state.targetY = ty) :
    (sys.state.progress + (MiningConfig.miningSpeed / sys.state.hardness) * (delta / 1000) < 1 →
      miningUpdate sys tm input px py true delta =
        (none,
         { sys with state := { sys.state with
             progress := sys.state.progress +
               (MiningConfig.miningSpeed / sys.state.hardness) * (delta / 1000) } },
         tm))
    ∧ (1 ≤ sys.state.progress + (MiningConfig.miningSpeed / sys.state.hardness) * (delta / 1000) →
        (miningUpdate sys tm input px py true delta).1 =
          some ⟨(destroyTile tm tx ty).1, tx, ty, tt, true⟩) := by
  rcases sys with ⟨⟨act, tX, tY, dir0, prog, hard⟩, timer, wg⟩
  replace hact : act = true := hact
  replace hwg : wg = true := hwg
  replace hx : tX = tx := hx
  replace hy : tY = ty := hy
  replace hcool : timer ≤ 0 := hcool
  subst hact hwg hx hy
  have hguard : ¬ (timer > 0) := not_lt.mpr hcool
  constructor <;> intro hp
  · simp only [miningUpdate, hdir, if_neg hd, Bool.not_true, Bool.false_and,
      Bool.false_eq_true, if_false, if_neg hguard, htgt, htile, hsolid]
    simp only [Bool.not_true, Bool.false_or, decide_eq_true_eq, if_neg hguard]
    simp [hp, not_le.mpr hp]
  · simp only [miningUpdate, hdir, if_neg hd, Bool.not_true, Bool.false_and,
      Bool.false_eq_true, if_false, if_neg hguard, htgt, htile, hsolid]
    simp only [Bool.not_true, Bool.false_or, decide_eq_true_eq, if_neg hguard]
    simp [hp]

/-! ### Concrete continuous-mining traces

A 1×2 world with the player in tile `(0,0)` (center `(16,16)`), mining
down into tile `(0,1)`, grounded every tick, cooldown expired.  `dirtRun`
ticks 100ms at a Dirt target; `oreRun` ticks 500ms at an Ore target. -/

def wDirt : TilemapState :=
  ⟨⟨[[TileType.EMPTY], [TileType.DIRT]], 1, 2, 0⟩, fun _ _ => true⟩

def wOre : TilemapState :=
  ⟨⟨[[TileType.EMPTY], [TileType.ORE]], 1, 2, 0⟩, fun _ _ => true⟩

def sysIdleReady : MiningSysState :=
  ⟨⟨false, -1, -1, MiningDirection.NONE, 0, 0⟩, 0, true⟩

def mineDownInput : MiningInput := ⟨true, false, false⟩

def dirtRun : ℕ → Option MiningResult × MiningSysState × TilemapState
  | 0 => (none, sysIdleReady, wDirt)
  | n+1 => miningUpdate (dirtRun n).2.1 (dirtRun n).2.2 mineDownInput 16 16 true 100

def oreRun : ℕ → Option MiningResult × MiningSysState × TilemapState
  | 0 => (none, sysIdleReady, wOre)
  | n+1 => miningUpdate (oreRun n).2.1 (oreRun n).2.2 mineDownInput 16 16 true 500

lemma target_eval : getTargetTile 16 16 MiningDirection.DOWN = some (0, 1) := by
  norm_num [getTargetTile]

lemma dirtRun_one : dirtRun 1 =
    (none, ⟨⟨true, 0, 1, MiningDirection.DOWN, 1/5, 1⟩, 0, true⟩, wDirt) := by
  show miningUpdate sysIdleReady wDirt mineDownInput 16 16 true 100 = _
  norm_num [miningUpdate, sysIdleReady, mineDownInput, getMiningDirection, target_eval,
    getTileAt, wDirt, TileRegistry, startMining, MiningConfig.miningSpeed,
    MiningConfig.landingCooldown, resetMining]
  decide

lemma dirtTick_cont (p : ℚ) (hp : p + 1/5 < 1) :
    miningUpdate ⟨⟨true, 0, 1, MiningDirection.DOWN, p, 1⟩, 0, true⟩ wDirt
        mineDownInput 16 16 true 100 =
      (none, ⟨⟨true, 0, 1, MiningDirection.DOWN, p + 1/5, 1⟩, 0, true⟩, wDirt) := by
  have htile : getTileAt wDirt 0 1 = some TileType.DIRT := by decide
  have h := (miningUpdate_session_eval ⟨⟨true, 0, 1, MiningDirection.DOWN, p, 1⟩, 0, true⟩
      wDirt mineDownInput 16 16 100 MiningDirection.DOWN 0 1 TileType.DIRT
      rfl (by decide) (by norm_num) rfl target_eval htile rfl rfl rfl rfl).1
    (by norm_num [MiningConfig.miningSpeed, TileRegistry]; linarith)
  rw [h]
  norm_num [MiningConfig.miningSpeed, TileRegistry]

lemma dirtTick_break (p : ℚ) (hp : 1 ≤ p + 1/5) :
    (miningUpdate ⟨⟨true, 0, 1, MiningDirection.DOWN, p, 1⟩, 0, true⟩ wDirt
        mineDownInput 16 16 true 100).1 =
      some ⟨true, 0, 1, TileType.DIRT, true⟩ := by
  have htile : getTileAt wDirt 0 1 = some TileType.DIRT := by decide
  have h := (miningUpdate_session_eval ⟨⟨true, 0, 1, MiningDirection.DOWN, p, 1⟩, 0, true⟩
      wDirt mineDownInput 16 16 100 MiningDirection.DOWN 0 1 TileType.DIRT
      rfl (by decide) (by norm_num) rfl target_eval htile rfl rfl rfl rfl).2
    (by norm_num [MiningConfig.miningSpeed, TileRegistry]; linarith)
  rw [h]
  have hd : (destroyTile wDirt 0 1).1 = true := by decide
  rw [hd]

lemma dirtRun_two : dirtRun 2 =
    (none, ⟨⟨true, 0, 1, MiningDirection.DOWN, 2/5, 1⟩, 0, true⟩, wDirt) := by
  show miningUpdate (dirtRun 1).2.1 (dirtRun 1).2.2 mineDownInput 16 16 true 100 = _
  rw [dirtRun_one]
  have h := dirtTick_cont (1/5) (by norm_num)
  rw [show (1/5 + 1/5 : ℚ) = 2/5 by norm_num] at h
  exact h

lemma dirtRun_three : dirtRun 3 =
    (none, ⟨⟨true, 0, 1, MiningDirection.DOWN, 3/5, 1⟩, 0, true⟩, wDirt) := by
  show miningUpdate (dirtRun 2).2.1 (dirtRun 2).2.2 mineDownInput 16 16 true 100 = _
  rw [dirtRun_two]
  have h := dirtTick_cont (2/5) (by norm_num)
  rw [show (2/5 + 1/5 : ℚ) = 3/5 by norm_num] at h
  exact h

lemma dirtRun_four : dirtRun 4 =
    (none, ⟨⟨true, 0, 1, MiningDirection.DOWN, 4/5, 1⟩, 0, true⟩, wDirt) := by
  show miningUpdate (dirtRun 3).2.1 (dirtRun 3).2.2 mineDownInput 16 16 true 100 = _
  rw [dirtRun_three]
  have h := dirtTick_cont (3/5) (by norm_num)
  rw [show (3/5 + 1/5 : ℚ) = 4/5 by norm_num] at h
  exact h

lemma dirtRun_five_breaks : (dirtRun 5).1 = some ⟨true, 0, 1, TileType.DIRT, true⟩ := by
  show (miningUpdate (dirtRun 4).2.1 (dirtRun 4).2.2 mineDownInput 16 16 true 100).1 = _
  rw [dirtRun_four]
  exact dirtTick_break (4/5) (by norm_num)

lemma oreRun_one : oreRun 1 =
    (none, ⟨⟨true, 0, 1, MiningDirection.DOWN, 1/5, 5⟩, 0, true⟩, wOre) := by
  show miningUpdate sysIdleReady wOre mineDownInput 16 16 true 500 = _
  norm_num [miningUpdate, sysIdleReady, mineDownInput, getMiningDirection, target_eval,
    getTileAt, wOre, TileRegistry, startMining, MiningConfig.miningSpeed,
    MiningConfig.landingCooldown, resetMining]
  decide

lemma oreTick_cont (p : ℚ) (hp : p + 1/5 < 1) :
    miningUpdate ⟨⟨true, 0, 1, MiningDirection.DOWN, p, 5⟩, 0, true⟩ wOre
        mineDownInput 16 16 true 500 =
      (none, ⟨⟨true, 0, 1, MiningDirection.DOWN, p + 1/5, 5⟩, 0, true⟩, wOre) := by
  have htile : getTileAt wOre 0 1 = some TileType.ORE := by decide
  have h := (miningUpdate_session_eval ⟨⟨true, 0, 1, MiningDirection.DOWN, p, 5⟩, 0, true⟩
      wOre mineDownInput 16 16 500 MiningDirection.DOWN 0 1 TileType.ORE
      rfl (by decide) (by norm_num) rfl target_eval htile rfl rfl rfl rfl).1
    (by norm_num [MiningConfig.miningSpeed, TileRegistry]; linarith)
  rw [h]
  norm_num [MiningConfig.miningSpeed, TileRegistry]

lemma oreTick_break (p : ℚ) (hp : 1 ≤ p + 1/5) :
    (miningUpdate ⟨⟨true, 0, 1, MiningDirection.DOWN, p, 5⟩, 0, true⟩ wOre
        mineDownInput 16 16 true 500).1 =
      some ⟨true, 0, 1, TileType.ORE, true⟩ := by
  have htile : getTileAt wOre 0 1 = some TileType.ORE := by decide
  have h := (miningUpdate_session_eval ⟨⟨true, 0, 1, MiningDirection.DOWN, p, 5⟩, 0, true⟩
      wOre mineDownInput 16 16 500 MiningDirection.DOWN 0 1 TileType.ORE
      rfl (by decide) (by norm_num) rfl target_eval htile rfl rfl rfl rfl).2
    (by norm_num [MiningConfig.miningSpeed, TileRegistry]; linarith)
  rw [h]
  have hd : (destroyTile wOre 0 1).1 = true := by decide
  rw [hd]

lemma oreRun_two : oreRun 2 =
    (none, ⟨⟨true, 0, 1, MiningDirection.DOWN, 2/5, 5⟩, 0, true⟩, wOre) := by
  show miningUpdate (oreRun 1).2.1 (oreRun 1).2.2 mineDownInput 16 16 true 500 = _
  rw [oreRun_one]
  have h := oreTick_cont (1/5) (by norm_num)
  rw [show (1/5 + 1/5 : ℚ) = 2/5 by norm_num] at h
  exact h

lemma oreRun_three : oreRun 3 =
    (none, ⟨⟨true, 0, 1, MiningDirection.DOWN, 3/5, 5⟩, 0, true⟩, wOre) := by
  show miningUpdate (oreRun 2).2.1 (oreRun 2).2.2 mineDownInput 16 16 true 500 = _
  rw [oreRun_two]
  have h := oreTick_cont (2/5) (by norm_num)
  rw [show (2/5 + 1/5 : ℚ) = 3/5 by norm_num] at h
  exact h

lemma oreRun_four : oreRun 4 =
    (none, ⟨⟨true, 0, 1, MiningDirection.DOWN, 4/5, 5⟩, 0, true⟩, wOre) := by
  show miningUpdate (oreRun 3).2.1 (oreRun 3).2.2 mineDownInput 16 16 true 500 = _
  rw [oreRun_three]
  have h := oreTick_cont (3/5) (by norm_num)
  rw [show (3/5 + 1/5 : ℚ) = 4/5 by norm_num] at h
  exact h

lemma oreRun_five_breaks : (oreRun 5).1 = some ⟨true, 0, 1, TileType.ORE, true⟩ := by
  show (miningUpdate (oreRun 4).2.1 (oreRun 4).2.2 mineDownInput 16 16 true 500).1 = _
  rw [oreRun_four]
  exact oreTick_break (4/5) (by norm_num)

/-- C9: while a session's preconditions hold each tick adds exactly
`(miningSpeed / hardness) * deltaTimeSeconds` to the progress, with the
hardness captured at session start; concretely, with `miningSpeed = 2.0`, a
continuously mined Dirt tile (hardness 1, 100ms ticks) has progress 4/5
after 0.4s and breaks on the tick that completes 0.5s of accumulated delta
time (before 1s elapses), and an Ore tile (hardness 5, 500ms ticks) has
progress 4/5 after 2.0s and breaks at 2.5s. -/
theorem mining_progress_spec :
    (∀ (sys : MiningSysState) (tm : TilemapState) (input : MiningInput)
        (px py delta : ℚ) (d : MiningDirection) (tx ty : Int) (tt : TileType),
      getMiningDirection input = d → d ≠ MiningDirection.NONE →
      sys.landingCooldownTimer ≤ 0 → sys.wasGroundedLastFrame = true →
      getTargetTile px py d = some (tx, ty) →
      getTileAt tm tx ty = some tt → (TileRegistry tt).solid = true →
      sys.state.isActive = true → sys.state.targetX = tx → sys.state.targetY = ty →
      (sys.state.progress + (MiningConfig.miningSpeed / sys.state.hardness) * (delta / 1000) < 1 →
        miningUpdate sys tm input px py true delta =
          (none,
           { sys with state := { sys.state with
               progress := sys.state.progress +
                 (MiningConfig.miningSpeed / sys.state.hardness) * (delta / 1000) } },
           tm))
      ∧ (1 ≤ sys.state.progress + (MiningConfig.miningSpeed / sys.state.hardness) * (delta / 1000) →
          (miningUpdate sys tm input px py true delta).1 =
            some ⟨(destroyTile tm tx ty).1, tx, ty, tt, true⟩))
    ∧ ((dirtRun 4).1 = none ∧ (dirtRun 4).2.1.state.progress = 4/5 ∧
       (dirtRun 5).1 = some ⟨true, 0, 1, TileType.DIRT, true⟩)
    ∧ ((oreRun 4).1 = none ∧ (oreRun 4).2.1.state.progress = 4/5 ∧
       (oreRun 5).1 = some ⟨true, 0, 1, TileType.ORE, true⟩) := by
  refine ⟨?_, ⟨?_, ?_, dirtRun_five_breaks⟩, ⟨?_, ?_, oreRun_five_breaks⟩⟩
  · intro sys tm input px py delta d tx ty tt hdir hd hcool hwg htgt htile hsolid hact hx hy
    exact miningUpdate_session_eval sys tm input px py delta d tx ty tt
      hdir hd hcool hwg htgt htile hsolid hact hx hy
  · rw [dirtRun_four]
  · rw [dirtRun_four]
  · rw [oreRun_four]
  · rw [oreRun_four]

/-- C9 witness: the per-tick accumulation applied at a concrete mid-session
state — Dirt session at progress 1/5, one 100ms tick advances it to
exactly `1/5 + (2/1)*(100/1000)`. -/
theorem mining_progress_spec_witness :
    miningUpdate ⟨⟨true, 0, 1, MiningDirection.DOWN, 1/5, 1⟩, 0, true⟩ wDirt
        mineDownInput 16 16 true 100 =
      (none,
       ⟨⟨true, 0, 1, MiningDirection.DOWN,
          1/5 + (MiningConfig.miningSpeed / 1) * (100 / 1000), 1⟩, 0, true⟩, wDirt) :=
  (mining_progress_spec.1 ⟨⟨true, 0, 1, MiningDirection.DOWN, 1/5, 1⟩, 0, true⟩ wDirt
      mineDownInput 16 16 100 MiningDirection.DOWN 0 1 TileType.DIRT
      rfl (by decide) (by norm_num) rfl target_eval (by decide) rfl rfl rfl rfl).1
    (by norm_num [MiningConfig.miningSpeed])

end Geodrop
